import Mathlib

/-!
Verification development for the Gemini Live voice-chat relay.

The JavaScript sources are shallowly embedded:
* pure numeric helpers (`resample`, `floatTo16BitPCM`, the PCM16 decode in
  `playAudio`, `scheduleAudioBuffer`, the base64 helpers) become pure Lean
  functions over `ℚ` / `Nat` / `ℤ` / lists;
* the per-connection message handler of `server.js` together with the
  connection lifecycle of `gemini-live.js` becomes an explicit state machine
  (`RelaySt`, `stepEvent`) whose events are the websocket callbacks that the
  Node event loop interleaves (incoming client frames, the upstream
  setup-complete message resolving the pending `await`, and the 10-second
  setup timer).

JavaScript numbers are modelled as exact rationals; the bit-twiddling in the
PCM conversion uses integer division/modulus, and the `Int16Array` /
`Uint8Array` element stores keep their wrap-around semantics explicitly.
-/

namespace GeminiLive

/-! ### Sample Converter (`public/js/app.js`, `public/js/audio-processor.js`) -/

/-- JavaScript `ToInteger` truncation (round toward zero), as applied when a
number is stored into an `Int16Array` element. -/
def jsTrunc (q : ℚ) : ℤ :=
  if 0 ≤ q then ⌊q⌋ else ⌈q⌉

/-- Storing an integer into an `Int16Array` element keeps the low 16 bits,
interpreted as a signed 16-bit value. -/
def toInt16 (n : ℤ) : ℤ :=
  (n + 32768) % 65536 - 32768

/-- One sample of `floatTo16BitPCM` (`app.js` lines 414-421 and
`audio-processor.js` lines 58-65):
`const s = Math.max(-1, Math.min(1, x)); int16[i] = s < 0 ? s * 0x8000 : s * 0x7FFF;` -/
def floatSampleTo16 (x : ℚ) : ℤ :=
  let s := max (-1) (min 1 x)
  toInt16 (jsTrunc (if s < 0 then s * 32768 else s * 32767))

/-- `floatTo16BitPCM` applied to a whole buffer. -/
def floatTo16BitPCM (l : List ℚ) : List ℤ :=
  l.map floatSampleTo16

/-- One sample of the PCM16 → float32 decode in `playAudio`
(`app.js` line 456): `float32Data[i] = int16View[i] / 32768.0`. -/
def pcm16SampleToFloat (v : ℤ) : ℚ :=
  (v : ℚ) / 32768

/-- The PCM16 → float32 decode loop in `playAudio` (`app.js` lines 452-457). -/
def pcm16ToFloat (l : List ℤ) : List ℚ :=
  l.map pcm16SampleToFloat

/-- `resample(inputData, inputSampleRate, outputSampleRate)`
(`app.js` lines 398-412, identical in `audio-processor.js` lines 42-56):
linear-interpolation resampling.  `Math.round` on a nonnegative argument is
`⌊x + 1/2⌋`, which is Mathlib's `round`. -/
def resample (input : List ℚ) (inputSampleRate outputSampleRate : ℚ) : List ℚ :=
  let ratio := inputSampleRate / outputSampleRate
  let outputLength := (round ((input.length : ℚ) / ratio)).toNat
  (List.range outputLength).map (fun (i : Nat) =>
    let srcIndex : ℚ := (i : ℚ) * ratio
    let srcIndexFloor : ℤ := ⌊srcIndex⌋
    let srcIndexCeil : ℤ := min (srcIndexFloor + 1) ((input.length : ℤ) - 1)
    let t : ℚ := srcIndex - (srcIndexFloor : ℚ)
    input.getD srcIndexFloor.toNat 0 * (1 - t) + input.getD srcIndexCeil.toNat 0 * t)

/-! ### Playback Scheduler (`public/js/app.js`, `scheduleAudioBuffer`) -/

/-- `scheduleAudioBuffer` (`app.js` lines 471-501), restricted to its cursor
arithmetic.  Input: the current `nextPlayTime` cursor, the playback clock
`audioContext.currentTime` at the moment of the call, and the buffer's
duration.  Output: the time passed to `source.start` and the updated cursor.
`!this.nextPlayTime` is the JavaScript falsiness test, i.e. cursor `= 0`. -/
def scheduleAudioBuffer (nextPlayTime now duration : ℚ) : ℚ × ℚ :=
  let start := if nextPlayTime = 0 ∨ nextPlayTime < now then now else nextPlayTime
  (start, start + duration)

/-! ### Base64 helpers (`public/js/app.js`, lines 423-439)

`arrayBufferToBase64` turns the bytes into a binary string with
`String.fromCharCode` and calls the platform's `btoa`; `base64ToArrayBuffer`
calls `atob` and reads the code units back with `charCodeAt` into a
`Uint8Array`.  `btoa`/`atob` are the standard RFC 4648 base64 codec over
latin-1 code units, modelled here byte-for-byte; a binary string is a list of
its code units. -/

/-- The 64-character base64 alphabet, in index order. -/
def base64Alphabet : List Char :=
  ['A', 'B', 'C', 'D', 'E', 'F', 'G', 'H', 'I', 'J', 'K', 'L', 'M',
   'N', 'O', 'P', 'Q', 'R', 'S', 'T', 'U', 'V', 'W', 'X', 'Y', 'Z',
   'a', 'b', 'c', 'd', 'e', 'f', 'g', 'h', 'i', 'j', 'k', 'l', 'm',
   'n', 'o', 'p', 'q', 'r', 's', 't', 'u', 'v', 'w', 'x', 'y', 'z',
   '0', '1', '2', '3', '4', '5', '6', '7', '8', '9', '+', '/']

/-- Character for a sextet value (the default is never reached for `n < 64`). -/
def charOfSextet (n : Nat) : Char :=
  base64Alphabet.getD n '='

/-- Sextet value of an alphabet character. -/
def sextetOfChar (c : Char) : Nat :=
  base64Alphabet.indexOf c

/-- `btoa` on a binary string (list of code units, each `< 256`): encode
groups of three bytes into four alphabet characters, padding the tail with
`'='`.  Bit operations are expressed with division/modulus by powers of two. -/
def btoaEncode : List Nat → List Char
  | [] => []
  | [a] =>
      [charOfSextet (a / 4), charOfSextet (a % 4 * 16), '=', '=']
  | [a, b] =>
      [charOfSextet (a / 4), charOfSextet (a % 4 * 16 + b / 16),
       charOfSextet (b % 16 * 4), '=']
  | a :: b :: c :: rest =>
      charOfSextet (a / 4) :: charOfSextet (a % 4 * 16 + b / 16) ::
      charOfSextet (b % 16 * 4 + c / 64) :: charOfSextet (c % 64) ::
      btoaEncode rest

/-- `atob`: decode four characters at a time, honouring `'='` padding. -/
def atobDecode : List Char → List Nat
  | c0 :: c1 :: c2 :: c3 :: rest =>
      let s0 := sextetOfChar c0
      let s1 := sextetOfChar c1
      if c2 = '=' then
        [s0 * 4 + s1 / 16]
      else
        let s2 := sextetOfChar c2
        if c3 = '=' then
          [s0 * 4 + s1 / 16, s1 % 16 * 16 + s2 / 4]
        else
          (s0 * 4 + s1 / 16) :: (s1 % 16 * 16 + s2 / 4) ::
          (s2 % 4 * 64 + sextetOfChar c3) :: atobDecode rest
  | _ => []

/-- `String.fromCharCode` keeps the low 16 bits of each argument; the
resulting binary string is its list of code units. -/
def stringFromCharCodes (bytes : List Nat) : List Nat :=
  bytes.map (· % 65536)

/-- `arrayBufferToBase64` (`app.js` lines 423-430). -/
def arrayBufferToBase64 (bytes : List Nat) : List Char :=
  btoaEncode (stringFromCharCodes bytes)

/-- `base64ToArrayBuffer` (`app.js` lines 432-439): `atob`, then `charCodeAt`
of each position stored into a `Uint8Array` (which wraps modulo 256). -/
def base64ToArrayBuffer (s : List Char) : List Nat :=
  (atobDecode s).map (· % 256)

/-! ### Upstream event demultiplexing (`src/gemini-live.js`, `ws.on('message')`)

The transcript-relevant shape of a provider message: an optional
`serverContent` with an optional `modelTurn` (list of parts, each optionally
carrying `inlineData` audio and/or `text`), optional `outputTranscription`,
`inputTranscription` and `inputAudioTranscription` objects with a `text`
field.  JavaScript truthiness makes an absent object and an empty-string
`text` both skip the corresponding branch. -/

/-- Who a transcript fragment is attributed to in the `onText` callback. -/
inductive Source
  | user
  | ai
deriving DecidableEq

/-- The string the code would place in a source field. -/
def Source.str : Source → String
  | .user => "user"
  | .ai => "ai"

/-- One element of `modelTurn.parts`. -/
structure GPart where
  inlineData : Option String
  text : Option String

/-- A transcription object: `{ text: ... }` with the field possibly absent. -/
structure Transcription where
  text : Option String

/-- `serverContent` as inspected by `gemini-live.js`. -/
structure ServerContent where
  modelTurn : Option (List GPart)
  outputTranscription : Option Transcription
  inputTranscription : Option Transcription
  inputAudioTranscription : Option Transcription

/-- JavaScript truthiness of `obj && obj.text`: the object exists, has a
`text` field, and the text is a non-empty string. -/
def truthyText : Option Transcription → Option String
  | none => none
  | some tr =>
      match tr.text with
      | none => none
      | some t => if t = "" then none else some t

/-- The `onAudio` calls made for one provider message carrying
`serverContent` (`gemini-live.js` lines 107-116): the `inlineData` payloads
of the model-turn parts, in order.  `part.text` is deliberately ignored. -/
def serverContentAudioEvents (c : ServerContent) : List String :=
  match c.modelTurn with
  | none => []
  | some parts => parts.filterMap (fun p => p.inlineData)

/-- The `onText` calls made for one provider message carrying
`serverContent`, in call order.  The handler checks `outputTranscription`
twice (`gemini-live.js` lines 120-122 and again lines 159-161), then
`inputTranscription` with an `inputAudioTranscription` fallback
(lines 163-168). -/
def serverContentTextEvents (c : ServerContent) : List (String × Source) :=
  (match truthyText c.outputTranscription with
   | some t => [(t, Source.ai)]
   | none => []) ++
  (match truthyText c.outputTranscription with
   | some t => [(t, Source.ai)]
   | none => []) ++
  (match truthyText c.inputTranscription with
   | some t => [(t, Source.user)]
   | none =>
      match truthyText c.inputAudioTranscription with
      | some t => [(t, Source.user)]
      | none => [])

/-! ### The relay's downstream messages (`src/server.js`)

Downstream messages are JSON objects; each is modelled as its list of
key/value pairs in serialization order. -/

/-- The message built by the relay's `onText` callback (`server.js` lines
88-95): `{ type: 'text', data: text }`.  The callback is declared with a
single parameter, so the `source` argument supplied by `gemini-live.js` is
accepted and dropped. -/
def serverTextMessage (text : String) (_source : Source) : List (String × String) :=
  [("type", "text"), ("data", text)]

/-! ### Session Relay state machine (`src/server.js` + `src/gemini-live.js`)

One downstream connection.  `server.js` keeps a mutable `geminiWs` (the
upstream handle adopted from a resolved `createGeminiConnection` promise, or
`null`).  The `clientWs.on('message')` handler is `async`: while one `start`
is suspended on `await createGeminiConnection(...)`, further client frames
run to completion, so the model's events are the atomic steps the Node event
loop actually interleaves:

* `recv m` — a downstream frame arrives and its handler runs until it either
  finishes or suspends on the `await` (for `start`: close the currently
  adopted upstream if any, open a fresh upstream transport, send the setup
  descriptor, and suspend);
* `setupComplete i` — upstream connection `i` delivers its setup-complete
  message: `resolve` fires and the suspended `start` continuation runs
  (`geminiWs = handle; clientWs.send({type:'status',status:'connected'})`);
* `connTimeout i` — connection `i`'s 10-second timer fires
  (`gemini-live.js` lines 197-202): if setup has not completed, the upstream
  transport is closed and the promise rejected, so the `start` handler's
  `catch` sends one downstream error.

A `recv none` event is a frame on which `JSON.parse` throws. -/

/-- Parsed downstream client messages (`message.type` dispatch). -/
inductive InMsg
  | start
  | audio (data : String)
  | video (data : String)
  | stop
  | other

/-- State of one upstream connection created by `createGeminiConnection`. -/
structure ConnSt where
  /-- the upstream websocket transport is open -/
  isOpen : Bool
  /-- `isSetupComplete` in `gemini-live.js` -/
  setupDone : Bool
  /-- the construction promise has been resolved or rejected -/
  settled : Bool
deriving DecidableEq

/-- Per-downstream-connection relay state: the adopted upstream handle (the
`geminiWs` variable, an index into `conns`) and every upstream connection
created so far, indexed by creation order. -/
structure RelaySt where
  geminiWs : Option Nat
  conns : List ConnSt
deriving DecidableEq

/-- The state of a fresh downstream connection (`let geminiWs = null`). -/
def initSt : RelaySt :=
  RelaySt.mk none []

/-- Events consumed by the relay's event loop. -/
inductive Event
  | recv (m : Option InMsg)
  | setupComplete (i : Nat)
  | connTimeout (i : Nat)

/-- Observable outputs of one event: messages sent downstream to the browser
and payloads sent upstream to the provider. -/
inductive Out
  | statusMsg (status : String)
  | errorMsg (message : String)
  | textOut (data : String)
  | audioOut (data : String)
  | upSend (conn : Nat) (data : String)
deriving DecidableEq

/-- Replace the connection record at index `i`. -/
def setConn : List ConnSt → Nat → ConnSt → List ConnSt
  | [], _, _ => []
  | _ :: rest, 0, c => c :: rest
  | c0 :: rest, n + 1, c => c0 :: setConn rest n c

/-- A newly opened upstream transport awaiting its setup-complete message. -/
def pendingConn : ConnSt :=
  ConnSt.mk true false false

/-- Mark a connection's transport closed (`ws.close()`). -/
def closeConn (c : ConnSt) : ConnSt :=
  ConnSt.mk false c.setupDone c.settled

/-- One step of the relay event loop.  Returns the next state and the
outputs emitted during the step, in order. -/
def stepEvent (s : RelaySt) (e : Event) : RelaySt × List Out :=
  match e with
  | .recv none =>
      -- JSON.parse threw: the catch block sends `{type:'error', message}`.
      (s, [Out.errorMsg "parse error"])
  | .recv (some m) =>
      match m with
      | .start =>
          -- `if (geminiWs) { geminiWs.close(); }` then
          -- `geminiWs = await createGeminiConnection(...)`: the close happens
          -- now; a fresh transport opens; the handler suspends, so `geminiWs`
          -- itself is not reassigned until the promise settles.
          let conns1 :=
            match s.geminiWs with
            | some h =>
                match s.conns[h]? with
                | some c => setConn s.conns h (closeConn c)
                | none => s.conns
            | none => s.conns
          (RelaySt.mk s.geminiWs (conns1 ++ [pendingConn]), [])
      | .audio d =>
          -- `if (message.type === 'audio' && geminiWs) geminiWs.sendAudio(...)`;
          -- `sendAudio` itself checks `ws.readyState === OPEN`.
          match s.geminiWs with
          | some h =>
              match s.conns[h]? with
              | some c => if c.isOpen then (s, [Out.upSend h d]) else (s, [])
              | none => (s, [])
          | none => (s, [])
      | .video d =>
          match s.geminiWs with
          | some h =>
              match s.conns[h]? with
              | some c => if c.isOpen then (s, [Out.upSend h d]) else (s, [])
              | none => (s, [])
          | none => (s, [])
      | .stop =>
          -- `if (geminiWs) { geminiWs.close(); geminiWs = null; }` then the
          -- `stopped` status is sent unconditionally.
          match s.geminiWs with
          | some h =>
              let conns1 :=
                match s.conns[h]? with
                | some c => setConn s.conns h (closeConn c)
                | none => s.conns
              (RelaySt.mk none conns1, [Out.statusMsg "stopped"])
          | none => (s, [Out.statusMsg "stopped"])
      | .other => (s, [])
  | .setupComplete i =>
      match s.conns[i]? with
      | some c =>
          if c.isOpen then
            if c.settled then
              -- `resolve` on a settled promise is a no-op; only
              -- `isSetupComplete = true` re-runs.
              (RelaySt.mk s.geminiWs (setConn s.conns i (ConnSt.mk c.isOpen true c.settled)), [])
            else
              -- the pending `start` continuation resumes: adopt the handle
              -- and send the `connected` status.
              (RelaySt.mk (some i) (setConn s.conns i (ConnSt.mk c.isOpen true true)),
               [Out.statusMsg "connected"])
          else
            -- a closed transport delivers no messages
            (s, [])
      | none => (s, [])
  | .connTimeout i =>
      match s.conns[i]? with
      | some c =>
          if c.setupDone then
            (s, [])
          else
            -- `ws.close(); reject(new Error('Connection timeout'))`; if the
            -- promise was still pending, the awaiting handler's catch sends
            -- one downstream error message.
            if c.settled then
              (RelaySt.mk s.geminiWs (setConn s.conns i (closeConn c)), [])
            else
              (RelaySt.mk s.geminiWs (setConn s.conns i (ConnSt.mk false c.setupDone true)),
               [Out.errorMsg "Connection timeout"])
      | none => (s, [])

/-- Run a list of events, accumulating outputs. -/
def runEvents (s : RelaySt) : List Event → RelaySt × List Out
  | [] => (s, [])
  | e :: rest =>
      let r1 := stepEvent s e
      let r2 := runEvents r1.1 rest
      (r2.1, r1.2 ++ r2.2)

/-- Number of upstream transports currently open. -/
def liveCount (s : RelaySt) : Nat :=
  s.conns.countP (fun c => c.isOpen)

/-- Number of downstream error messages in an output list. -/
def errorCount (outs : List Out) : Nat :=
  outs.countP (fun o => match o with | Out.errorMsg _ => true | _ => false)

/-! ### Helper lemmas -/

theorem setConn_get?_self (l : List ConnSt) (i : Nat) (c : ConnSt) (h : i < l.length) :
    (setConn l i c)[i]? = some c := by
  induction l generalizing i with
  | nil => simp at h
  | cons c0 rest ih =>
      cases i with
      | zero => simp [setConn]
      | succ n =>
          simp only [List.length_cons, Nat.succ_lt_succ_iff] at h
          simpa [setConn] using ih n h

/-! ### Claims about the Session Relay state machine -/

/-- C9: a downstream frame on which `JSON.parse` throws is caught by the
handler's `try`/`catch`: the relay sends exactly one downstream error
message, the step is total (the process does not crash), and the session
state — including the active upstream connection or its absence — is exactly
what it was before. -/
theorem claim_C9 (s : RelaySt) :
    (stepEvent s (Event.recv none)).1 = s ∧
    (stepEvent s (Event.recv none)).2 = [Out.errorMsg "parse error"] ∧
    errorCount (stepEvent s (Event.recv none)).2 = 1 ∧
    (stepEvent s (Event.recv none)).1.geminiWs = s.geminiWs :=
  ⟨rfl, rfl, rfl, rfl⟩

/-- C8: an `audio` or `video` downstream message arriving when no upstream
session is active (`geminiWs` is null, as after `stop`) changes nothing and
emits nothing: no upstream send and no downstream error. -/
theorem claim_C8 (s : RelaySt) (d : String) (h : s.geminiWs = none) :
    stepEvent s (Event.recv (some (InMsg.audio d))) = (s, []) ∧
    stepEvent s (Event.recv (some (InMsg.video d))) = (s, []) := by
  constructor <;> simp [stepEvent, h]

/-- C8 witness: after `start`, setup completion and `stop`, an audio chunk is
silently ignored. -/
theorem claim_C8_witness :
    (runEvents initSt [Event.recv (some InMsg.start), Event.setupComplete 0,
        Event.recv (some InMsg.stop)]).1.geminiWs = none ∧
    stepEvent (runEvents initSt [Event.recv (some InMsg.start), Event.setupComplete 0,
        Event.recv (some InMsg.stop)]).1 (Event.recv (some (InMsg.audio "QUJD"))) =
      ((runEvents initSt [Event.recv (some InMsg.start), Event.setupComplete 0,
        Event.recv (some InMsg.stop)]).1, []) :=
  ⟨rfl, (claim_C8 _ "QUJD" rfl).1⟩

/-- C4: when the 10-second setup timer fires on a connection whose setup has
not completed and whose construction promise is still pending, the
construction fails: the upstream transport is closed (no dangling open
transport for that connection), the promise settles (the awaiting `start`
handler observes the failure), and exactly one downstream error message is
sent.  The adopted upstream handle is untouched. -/
theorem claim_C4 (s : RelaySt) (i : Nat) (c : ConnSt)
    (hc : s.conns[i]? = some c) (hsetup : c.setupDone = false)
    (hsettled : c.settled = false) :
    (stepEvent s (Event.connTimeout i)).2 = [Out.errorMsg "Connection timeout"] ∧
    errorCount (stepEvent s (Event.connTimeout i)).2 = 1 ∧
    (stepEvent s (Event.connTimeout i)).1.conns[i]? = some (ConnSt.mk false false true) ∧
    (stepEvent s (Event.connTimeout i)).1.geminiWs = s.geminiWs := by
  have hlen : i < s.conns.length := by
    by_contra hn
    push_neg at hn
    rw [List.getElem?_eq_none hn] at hc
    cases hc
  refine ⟨?_, ?_, ?_, ?_⟩ <;>
    simp [stepEvent, hc, hsetup, hsettled, errorCount, setConn_get?_self _ _ _ hlen]

/-- C4 witness: a `start` whose connection never completes setup, followed by
the timer firing. -/
theorem claim_C4_witness :
    (runEvents initSt [Event.recv (some InMsg.start)]).1.conns[0]? = some pendingConn ∧
    (stepEvent (runEvents initSt [Event.recv (some InMsg.start)]).1
        (Event.connTimeout 0)).2 = [Out.errorMsg "Connection timeout"] ∧
    (stepEvent (runEvents initSt [Event.recv (some InMsg.start)]).1
        (Event.connTimeout 0)).1.conns[0]? = some (ConnSt.mk false false true) :=
  have h := claim_C4 (runEvents initSt [Event.recv (some InMsg.start)]).1 0 pendingConn rfl rfl rfl
  ⟨rfl, h.1, h.2.2.1⟩

/-- C2 counterexample: `stop` while the `start` handshake is still pending
does not cancel the setup wait.  In the trace `start`, `stop`,
late setup-complete, the relay adopts the late upstream handle as its active
session (`geminiWs = some 0`, not `none`) and sends the `connected` status
after the `stopped` one — the claim's required behaviour is violated. -/
theorem claim_C2_cex :
    (runEvents initSt [Event.recv (some InMsg.start), Event.recv (some InMsg.stop),
        Event.setupComplete 0]).1.geminiWs = some 0 ∧
    (runEvents initSt [Event.recv (some InMsg.start), Event.recv (some InMsg.stop),
        Event.setupComplete 0]).2 =
      [Out.statusMsg "stopped", Out.statusMsg "connected"] :=
  ⟨rfl, rfl⟩

/-- C2 (amended): the in-flight setup wait is not cancelled by `stop` or
disconnect.  Whenever a created upstream connection is still open and its
promise unsettled, its setup-complete event makes the relay adopt that handle
as the active session and send a `connected` status — regardless of the
current value of `geminiWs` (in particular after an intervening `stop`). -/
theorem claim_C2 (s : RelaySt) (i : Nat) (h : s.conns[i]? = some pendingConn) :
    (stepEvent s (Event.setupComplete i)).1.geminiWs = some i ∧
    (stepEvent s (Event.setupComplete i)).2 = [Out.statusMsg "connected"] := by
  constructor <;> simp [stepEvent, h, pendingConn]

/-- C2 witness: the pending connection left by `start` then `stop` is adopted
when its setup-complete event arrives. -/
theorem claim_C2_witness :
    (runEvents initSt [Event.recv (some InMsg.start),
        Event.recv (some InMsg.stop)]).1.conns[0]? = some pendingConn ∧
    (stepEvent (runEvents initSt [Event.recv (some InMsg.start),
        Event.recv (some InMsg.stop)]).1 (Event.setupComplete 0)).1.geminiWs = some 0 :=
  have h := claim_C2 (runEvents initSt [Event.recv (some InMsg.start),
      Event.recv (some InMsg.stop)]).1 0 rfl
  ⟨rfl, h.1⟩

/-- C3 counterexample: two `start` messages arriving while the first setup is
still pending leave TWO live upstream connections.  The second `start` sees
`geminiWs` still null (the first handler is suspended on its `await`), so it
closes nothing; when both setup-complete events arrive, both transports are
open — the "at most one live Upstream Session Client at any time" invariant
is violated. -/
theorem claim_C3_cex :
    liveCount (runEvents initSt [Event.recv (some InMsg.start), Event.recv (some InMsg.start),
        Event.setupComplete 0, Event.setupComplete 1]).1 = 2 ∧
    ¬ liveCount (runEvents initSt [Event.recv (some InMsg.start), Event.recv (some InMsg.start),
        Event.setupComplete 0, Event.setupComplete 1]).1 ≤ 1 :=
  ⟨rfl, by decide⟩

/-- C3 (amended): when each `start`'s setup handshake completes before the
next `start` arrives, the invariant holds: a `start` arriving while an
upstream connection is adopted closes it before the new transport opens
(after `start`, setup-complete, `start` the first connection is closed and
exactly one transport is live), and after the second handshake completes
exactly one upstream connection is live, the newly adopted one.  Two `start`s
whose setups interleave instead leave the first connection live and
unreferenced. -/
theorem claim_C3 :
    (runEvents initSt [Event.recv (some InMsg.start), Event.setupComplete 0,
        Event.recv (some InMsg.start)]).1.conns[0]? = some (ConnSt.mk false true true) ∧
    liveCount (runEvents initSt [Event.recv (some InMsg.start), Event.setupComplete 0,
        Event.recv (some InMsg.start)]).1 = 1 ∧
    liveCount (runEvents initSt [Event.recv (some InMsg.start), Event.setupComplete 0,
        Event.recv (some InMsg.start), Event.setupComplete 1]).1 = 1 ∧
    (runEvents initSt [Event.recv (some InMsg.start), Event.setupComplete 0,
        Event.recv (some InMsg.start), Event.setupComplete 1]).1.geminiWs = some 1 :=
  ⟨rfl, rfl, rfl, rfl⟩

/-! ### Claims about the Playback Scheduler and Sample Converter -/

/-- C5: for nonnegative playback-clock time and buffer duration, one
`scheduleAudioBuffer` call (i) never decreases the `nextPlayTime` cursor,
(ii) starts the buffer at the incoming cursor — which equals the previous
buffer's start plus the previous buffer's duration — unless the cursor is
unset (0) or has fallen behind the clock, in which case it starts at "now",
and (iii) advances the cursor by exactly the buffer's duration past the
scheduled start. -/
theorem claim_C5 (next now dur : ℚ) (hnow : 0 ≤ now) (hdur : 0 ≤ dur) :
    next ≤ (scheduleAudioBuffer next now dur).2 ∧
    (scheduleAudioBuffer next now dur).1 =
      (if next = 0 ∨ next < now then now else next) ∧
    (scheduleAudioBuffer next now dur).2 = (scheduleAudioBuffer next now dur).1 + dur := by
  unfold scheduleAudioBuffer
  dsimp only
  refine ⟨?_, rfl, rfl⟩
  split_ifs with h
  · rcases h with h0 | hlt
    · subst h0; linarith
    · linarith
  · linarith

/-- C5 witness: an unset cursor with the clock at 1 and a buffer of half a
second. -/
theorem claim_C5_witness :
    (0 : ℚ) ≤ 1 ∧ (0 : ℚ) ≤ 1 / 2 ∧
    ((0 : ℚ) ≤ (scheduleAudioBuffer 0 1 (1 / 2)).2 ∧
     (scheduleAudioBuffer 0 1 (1 / 2)).1 =
       (if (0 : ℚ) = 0 ∨ (0 : ℚ) < 1 then (1 : ℚ) else 0) ∧
     (scheduleAudioBuffer 0 1 (1 / 2)).2 = (scheduleAudioBuffer 0 1 (1 / 2)).1 + 1 / 2) :=
  ⟨by norm_num, by norm_num, claim_C5 0 1 (1 / 2) (by norm_num) (by norm_num)⟩

/-- C6: `resample` returns a sequence of length
`round(inputLength × outputRate / inputRate)`, and the output sample at each
index `i` is the linear interpolation between the source samples at
`⌊i × inputRate / outputRate⌋` and that index plus one, with the upper index
clamped to the last valid input sample. -/
theorem claim_C6 (input : List ℚ) (inputRate outputRate : ℚ) :
    (resample input inputRate outputRate).length =
      (round ((input.length : ℚ) * outputRate / inputRate)).toNat ∧
    ∀ i : Nat, i < (resample input inputRate outputRate).length →
      (resample input inputRate outputRate).getD i 0 =
        input.getD (⌊(i : ℚ) * inputRate / outputRate⌋).toNat 0 *
            (1 - ((i : ℚ) * inputRate / outputRate - ⌊(i : ℚ) * inputRate / outputRate⌋)) +
          input.getD (min (⌊(i : ℚ) * inputRate / outputRate⌋ + 1)
              ((input.length : ℤ) - 1)).toNat 0 *
            ((i : ℚ) * inputRate / outputRate - ⌊(i : ℚ) * inputRate / outputRate⌋) := by
  have hratio : (input.length : ℚ) / (inputRate / outputRate) =
      (input.length : ℚ) * outputRate / inputRate := div_div_eq_mul_div _ _ _
  have hsrc : ∀ i : Nat, (i : ℚ) * (inputRate / outputRate) =
      (i : ℚ) * inputRate / outputRate := fun i => (mul_div_assoc _ _ _).symm
  dsimp only [resample]
  refine ⟨?_, ?_⟩
  · rw [List.length_map, List.length_range, hratio]
  · intro i hi
    rw [List.length_map, List.length_range] at hi
    rw [List.getD_eq_getElem?_getD, List.getElem?_map, List.getElem?_range hi]
    dsimp only [Option.map_some', Option.getD_some]
    rw [hsrc i]

theorem toInt16_eq_self (n : ℤ) (h1 : -32768 ≤ n) (h2 : n ≤ 32767) : toInt16 n = n := by
  unfold toInt16
  omega

/-- Per-sample analysis of the PCM16 round trip: for a sample already in
`[-1, 1]` the encoded value is in signed 16-bit range and decoding recovers
the sample to within 2/32768 (negative samples even to within 1/32768). -/
theorem floatSample_roundtrip (x : ℚ) (h1 : -1 ≤ x) (h2 : x ≤ 1) :
    -32768 ≤ floatSampleTo16 x ∧ floatSampleTo16 x ≤ 32767 ∧
    |x - pcm16SampleToFloat (floatSampleTo16 x)| < 2 / 32768 ∧
    (x < 0 → |x - pcm16SampleToFloat (floatSampleTo16 x)| < 1 / 32768) := by
  have hs : max (-1) (min 1 x) = x := by
    rw [min_eq_right h2, max_eq_right h1]
  have h32 : (0 : ℚ) < 32768 := by norm_num
  simp only [floatSampleTo16, hs]
  by_cases hx : x < 0
  · rw [if_pos hx]
    have hq : ¬ (0 : ℚ) ≤ x * 32768 := by
      push_neg
      exact mul_neg_of_neg_of_pos hx h32
    rw [jsTrunc, if_neg hq]
    have hcl : (-32768 : ℤ) ≤ ⌈x * 32768⌉ := by
      have hle : (-32768 : ℚ) ≤ x * 32768 := by nlinarith
      calc (-32768 : ℤ) = ⌈(((-32768 : ℤ) : ℚ))⌉ := (Int.ceil_intCast _).symm
        _ = ⌈(-32768 : ℚ)⌉ := by norm_num
        _ ≤ ⌈x * 32768⌉ := Int.ceil_le_ceil hle
    have hcu : ⌈x * 32768⌉ ≤ 0 := by
      rw [Int.ceil_le]
      push_cast
      nlinarith
    rw [toInt16_eq_self _ hcl (le_trans hcu (by norm_num))]
    unfold pcm16SampleToFloat
    have hlo : (x * 32768 : ℚ) ≤ (⌈x * 32768⌉ : ℚ) := Int.le_ceil _
    have hhi : ((⌈x * 32768⌉ : ℚ)) < x * 32768 + 1 := Int.ceil_lt_add_one _
    have herr : |x - (⌈x * 32768⌉ : ℚ) / 32768| < 1 / 32768 := by
      rw [abs_sub_lt_iff]
      constructor
      · have hd : x ≤ (⌈x * 32768⌉ : ℚ) / 32768 := by
          rw [le_div_iff₀ h32]
          linarith
        linarith
      · rw [sub_lt_iff_lt_add, div_lt_iff₀ h32]
        ring_nf
        linarith
    exact ⟨hcl, le_trans hcu (by norm_num), lt_trans herr (by norm_num), fun _ => herr⟩
  · rw [if_neg hx]
    push_neg at hx
    have hq : (0 : ℚ) ≤ x * 32767 := by positivity
    rw [jsTrunc, if_pos hq]
    have hfl : 0 ≤ ⌊x * 32767⌋ := Int.floor_nonneg.mpr hq
    have hfu : ⌊x * 32767⌋ ≤ 32767 := by
      calc ⌊x * 32767⌋ ≤ ⌊(32767 : ℚ)⌋ := Int.floor_le_floor (by nlinarith)
        _ = 32767 := by norm_num
    rw [toInt16_eq_self _ (le_trans (by norm_num) hfl) hfu]
    unfold pcm16SampleToFloat
    have hlo : ((⌊x * 32767⌋ : ℚ)) ≤ x * 32767 := Int.floor_le _
    have hhi : (x * 32767 : ℚ) < ⌊x * 32767⌋ + 1 := Int.lt_floor_add_one _
    have herr : |x - (⌊x * 32767⌋ : ℚ) / 32768| < 2 / 32768 := by
      rw [abs_sub_lt_iff]
      constructor
      · rw [sub_lt_iff_lt_add, div_add_div_same, lt_div_iff₀ h32]
        linarith
      · have hd : ((⌊x * 32767⌋ : ℚ)) / 32768 ≤ x := by
          rw [div_le_iff₀ h32]
          linarith
        linarith
    exact ⟨le_trans (by norm_num) hfl, hfu, herr,
      fun hneg => absurd hneg (not_lt.mpr hx)⟩

/-- C7 counterexample: the sample `9/10` lies in `[-1, 1]`, yet the encode /
decode round trip returns `29490/32768` whose distance from `9/10` is
`12/32768 ÷ 10 = 1.2` least-significant bits — strictly more than the one
LSB (`1/32768`) the claim allows.  The mismatch comes from scaling positives
by `32767` on encode but dividing by `32768` on decode, plus truncation. -/
theorem claim_C7_cex :
    (-1 ≤ (9 / 10 : ℚ) ∧ (9 / 10 : ℚ) ≤ 1) ∧
    pcm16ToFloat (floatTo16BitPCM [(9 / 10 : ℚ)]) = [(29490 / 32768 : ℚ)] ∧
    1 / 32768 < |(9 / 10 : ℚ) - pcm16SampleToFloat (floatSampleTo16 (9 / 10))| := by
  have hfloor : (⌊(9 / 10 : ℚ) * 32767⌋ : ℤ) = 29490 := by
    rw [Int.floor_eq_iff]
    constructor <;> norm_num
  have hval : floatSampleTo16 (9 / 10) = 29490 := by
    have hs : max (-1 : ℚ) (min 1 (9 / 10)) = 9 / 10 := by norm_num
    simp only [floatSampleTo16, hs]
    rw [if_neg (by norm_num : ¬ (9 / 10 : ℚ) < 0), jsTrunc,
      if_pos (by norm_num : (0 : ℚ) ≤ (9 / 10 : ℚ) * 32767), hfloor]
    unfold toInt16
    norm_num
  refine ⟨by norm_num, ?_, ?_⟩
  · simp [pcm16ToFloat, floatTo16BitPCM, hval, pcm16SampleToFloat]
  · rw [hval]
    unfold pcm16SampleToFloat
    rw [abs_of_pos (by norm_num)]
    norm_num

/-- C7 (amended): for every sequence whose samples lie in `[-1, 1]`, the
PCM16 round trip (clamp, scale positives by 32767 and negatives by 32768,
truncate, then divide by 32768) reproduces each sample within 2
least-significant bits (strictly less than `2/32768`; within 1 LSB for
negative samples), and every intermediate 16-bit value lies in the signed
16-bit range `[-32768, 32767]`. -/
theorem claim_C7 (l : List ℚ) (h : ∀ x ∈ l, -1 ≤ x ∧ x ≤ 1) :
    pcm16ToFloat (floatTo16BitPCM l) =
      l.map (fun x => pcm16SampleToFloat (floatSampleTo16 x)) ∧
    ∀ x ∈ l,
      |x - pcm16SampleToFloat (floatSampleTo16 x)| < 2 / 32768 ∧
      -32768 ≤ floatSampleTo16 x ∧ floatSampleTo16 x ≤ 32767 := by
  constructor
  · unfold pcm16ToFloat floatTo16BitPCM
    rw [List.map_map]
    rfl
  · intro x hx
    obtain ⟨hb1, hb2⟩ := h x hx
    obtain ⟨r1, r2, r3, -⟩ := floatSample_roundtrip x hb1 hb2
    exact ⟨r3, r1, r2⟩

/-- C7 witness: the one-sample sequence `[1/2]`. -/
theorem claim_C7_witness :
    (∀ x ∈ [(1 / 2 : ℚ)], -1 ≤ x ∧ x ≤ 1) ∧
    ∀ x ∈ [(1 / 2 : ℚ)],
      |x - pcm16SampleToFloat (floatSampleTo16 x)| < 2 / 32768 ∧
      -32768 ≤ floatSampleTo16 x ∧ floatSampleTo16 x ≤ 32767 :=
  ⟨by norm_num, (claim_C7 [(1 / 2 : ℚ)] (by norm_num)).2⟩

/-! ### Claims about the base64 helpers -/

theorem sextetOfChar_charOfSextet : ∀ n : Nat, n < 64 →
    sextetOfChar (charOfSextet n) = n := by
  decide

theorem charOfSextet_ne_pad : ∀ n : Nat, n < 64 → charOfSextet n ≠ '=' := by
  decide

/-- `atob` decodes `btoa`'s output back to the original binary string. -/
theorem atob_btoa : ∀ (b : List Nat), (∀ x ∈ b, x < 256) →
    atobDecode (btoaEncode b) = b
  | [], _ => rfl
  | [a], h => by
      have ha : a < 256 := h a (by simp)
      simp only [btoaEncode, atobDecode, if_true]
      rw [sextetOfChar_charOfSextet (a / 4) (by omega),
        sextetOfChar_charOfSextet (a % 4 * 16) (by omega)]
      simp only [List.cons.injEq, and_true]
      omega
  | [a, b], h => by
      have ha : a < 256 := h a (by simp)
      have hb : b < 256 := h b (by simp)
      simp only [btoaEncode, atobDecode]
      rw [if_neg (charOfSextet_ne_pad (b % 16 * 4) (by omega))]
      simp only [if_true]
      rw [sextetOfChar_charOfSextet (a / 4) (by omega),
        sextetOfChar_charOfSextet (a % 4 * 16 + b / 16) (by omega),
        sextetOfChar_charOfSextet (b % 16 * 4) (by omega)]
      simp only [List.cons.injEq, and_true]
      omega
  | a :: b :: c :: rest, h => by
      have ha : a < 256 := h a (by simp)
      have hb : b < 256 := h b (by simp)
      have hc : c < 256 := h c (by simp)
      have ih := atob_btoa rest (fun x hx => h x (by simp [hx]))
      simp only [btoaEncode, atobDecode]
      rw [if_neg (charOfSextet_ne_pad (b % 16 * 4 + c / 64) (by omega)),
        if_neg (charOfSextet_ne_pad (c % 64) (by omega))]
      rw [sextetOfChar_charOfSextet (a / 4) (by omega),
        sextetOfChar_charOfSextet (a % 4 * 16 + b / 16) (by omega),
        sextetOfChar_charOfSextet (b % 16 * 4 + c / 64) (by omega),
        sextetOfChar_charOfSextet (c % 64) (by omega)]
      rw [ih]
      simp only [List.cons.injEq, and_true]
      omega

/-- C10: for every byte sequence, decoding the encoding returns the original
bytes — the two base64 helpers are mutually inverse on `Uint8Array`
contents, which is what makes the relay's audio/video payload pass-through
lossless. -/
theorem claim_C10 (b : List Nat) (h : ∀ x ∈ b, x < 256) :
    base64ToArrayBuffer (arrayBufferToBase64 b) = b := by
  have h1 : stringFromCharCodes b = b := by
    unfold stringFromCharCodes
    calc b.map (· % 65536)
        = b.map id := List.map_congr_left
          (fun x hx => Nat.mod_eq_of_lt (by have := h x hx; omega))
      _ = b := List.map_id b
  unfold base64ToArrayBuffer arrayBufferToBase64
  rw [h1, atob_btoa b h]
  calc b.map (· % 256)
      = b.map id := List.map_congr_left (fun x hx => Nat.mod_eq_of_lt (h x hx))
    _ = b := List.map_id b

/-- C10 witness: a concrete three-byte payload. -/
theorem claim_C10_witness :
    (∀ x ∈ [0, 255, 77], x < 256) ∧
    base64ToArrayBuffer (arrayBufferToBase64 [0, 255, 77]) = [0, 255, 77] :=
  ⟨by decide, claim_C10 [0, 255, 77] (by decide)⟩

/-! ### Claims about transcript forwarding -/

/-- Which transcript events one provider message gives rise to: an AI-tagged
event exactly for a truthy `outputTranscription` (emitted twice by the
duplicated handler block, hence membership collapses to one condition), and a
user-tagged event for a truthy `inputTranscription`, falling back to
`inputAudioTranscription`. -/
theorem mem_serverContentTextEvents (c : ServerContent) (t : String) (src : Source) :
    (t, src) ∈ serverContentTextEvents c ↔
      (src = Source.ai ∧ truthyText c.outputTranscription = some t) ∨
      (src = Source.user ∧ (truthyText c.inputTranscription = some t ∨
        (truthyText c.inputTranscription = none ∧
         truthyText c.inputAudioTranscription = some t))) := by
  rcases hout : truthyText c.outputTranscription with _ | t0 <;>
  rcases hin : truthyText c.inputTranscription with _ | t1 <;>
  rcases hia : truthyText c.inputAudioTranscription with _ | t2 <;>
  cases src <;>
  simp [serverContentTextEvents, hout, hin, hia, Prod.ext_iff, eq_comm]

/-- C1 counterexample: a provider message whose `serverContent` carries the
output transcript `"hi"` produces the AI-tagged transcript event, but the
message the relay sends downstream for it is `{type:'text', data:'hi'}` with
no `source` field at all: `server.js`'s `onText` callback takes a single
parameter and drops the `source` argument that `gemini-live.js` passes. -/
theorem claim_C1_cex :
    ("hi", Source.ai) ∈ serverContentTextEvents
      (ServerContent.mk none (some (Transcription.mk (some "hi"))) none none) ∧
    serverTextMessage "hi" Source.ai = [("type", "text"), ("data", "hi")] ∧
    ¬ ∃ v, ("source", v) ∈ serverTextMessage "hi" Source.ai := by
  refine ⟨?_, rfl, ?_⟩
  · simp [serverContentTextEvents, truthyText]
  · rintro ⟨v, hv⟩
    simp only [serverTextMessage, List.mem_cons, List.not_mem_nil, or_false] at hv
    rcases hv with h1 | h1
    · have h2 : "source" = "type" := congrArg Prod.fst h1
      exact absurd h2 (by decide)
    · have h2 : "source" = "data" := congrArg Prod.fst h1
      exact absurd h2 (by decide)

/-- C1 (amended): for every transcript event the upstream client emits, the
relay's downstream message has type `text` and carries the transcript in
`data`, but no `source` field; the source tag exists only at the callback
boundary, where it is `ai` exactly for output transcripts and `user` exactly
for input transcripts. -/
theorem claim_C1 (c : ServerContent) (t : String) (src : Source)
    (h : (t, src) ∈ serverContentTextEvents c) :
    serverTextMessage t src = [("type", "text"), ("data", t)] ∧
    (∀ v, ("source", v) ∉ serverTextMessage t src) ∧
    (src = Source.ai → truthyText c.outputTranscription = some t) ∧
    (src = Source.user → truthyText c.inputTranscription = some t ∨
      truthyText c.inputAudioTranscription = some t) := by
  refine ⟨rfl, ?_, ?_, ?_⟩
  · intro v hv
    simp only [serverTextMessage, List.mem_cons, List.not_mem_nil, or_false] at hv
    rcases hv with h1 | h1
    · have h2 : "source" = "type" := congrArg Prod.fst h1
      exact absurd h2 (by decide)
    · have h2 : "source" = "data" := congrArg Prod.fst h1
      exact absurd h2 (by decide)
  · intro hsrc
    subst hsrc
    rcases (mem_serverContentTextEvents c t _).mp h with ⟨-, h2⟩ | ⟨h2, -⟩
    · exact h2
    · cases h2
  · intro hsrc
    subst hsrc
    rcases (mem_serverContentTextEvents c t _).mp h with ⟨h2, -⟩ | ⟨-, h2⟩
    · cases h2
    · rcases h2 with h3 | ⟨-, h3⟩
      · exact Or.inl h3
      · exact Or.inr h3

/-- C1 witness: the output-transcript event `("hi", ai)`. -/
theorem claim_C1_witness :
    ("hi", Source.ai) ∈ serverContentTextEvents
      (ServerContent.mk none (some (Transcription.mk (some "hi"))) none none) ∧
    serverTextMessage "hi" Source.ai = [("type", "text"), ("data", "hi")] ∧
    truthyText (ServerContent.mk none (some (Transcription.mk (some "hi")))
      none none).outputTranscription = some "hi" :=
  have hmem : ("hi", Source.ai) ∈ serverContentTextEvents
      (ServerContent.mk none (some (Transcription.mk (some "hi"))) none none) := by
    simp [serverContentTextEvents, truthyText]
  have hc := claim_C1 (ServerContent.mk none (some (Transcription.mk (some "hi"))) none none)
    "hi" Source.ai hmem
  ⟨hmem, hc.1, hc.2.2.1 rfl⟩

end GeminiLive
